import Mathlib

/-!
Verification of the GRAAFIN ingestion and reconciliation pipeline.

Strings are modelled as lists of characters.  The Unicode-dependent steps
of the source (String.prototype.toLowerCase and String.prototype.normalize
with NFD) are modelled on the Basic Latin range, where toLowerCase is the
ASCII case map and NFD is the identity; every output of normalizeName
consists only of ASCII word characters and spaces, so iterated behaviour
is exact on that range.
-/

namespace Graafin

/-- Characters matched by the JavaScript regex class backslash-s and
removed by String.prototype.trim: space, tab, line feed, vertical tab,
form feed, carriage return, no-break space, ogham space mark, the en-quad
to hair-space range, line and paragraph separators, narrow no-break
space, medium mathematical space, ideographic space, and the byte-order
mark. -/
def jsWhitespace (c : Char) : Bool :=
  c.toNat = 32 || c.toNat = 9 || c.toNat = 10 || c.toNat = 11 ||
  c.toNat = 12 || c.toNat = 13 || c.toNat = 0xa0 || c.toNat = 0x1680 ||
  (0x2000 ≤ c.toNat && c.toNat ≤ 0x200a) ||
  c.toNat = 0x2028 || c.toNat = 0x2029 || c.toNat = 0x202f ||
  c.toNat = 0x205f || c.toNat = 0x3000 || c.toNat = 0xfeff

/-- Characters matched by the JavaScript regex class backslash-w: the
ranges a-z, A-Z, 0-9 and the underscore. -/
def wordChar (c : Char) : Bool :=
  (97 ≤ c.toNat && c.toNat ≤ 122) || (65 ≤ c.toNat && c.toNat ≤ 90) ||
  (48 ≤ c.toNat && c.toNat ≤ 57) || c.toNat = 95

/-- Combining marks stripped by the source regex range U+0300 to U+036F. -/
def combining0300 (c : Char) : Bool :=
  0x300 ≤ c.toNat && c.toNat ≤ 0x36f

/-- ASCII uppercase test used for the lowercase model. -/
def upperAZ (c : Char) : Bool :=
  65 ≤ c.toNat && c.toNat ≤ 90

/-- Model of String.prototype.toLowerCase on the Basic Latin range. -/
def asciiLower (c : Char) : Char :=
  if upperAZ c then Char.ofNat (c.toNat + 32) else c

/-- Model of String.prototype.trim: strip JS whitespace from both ends. -/
def jsTrim (l : List Char) : List Char :=
  ((l.dropWhile jsWhitespace).reverse.dropWhile jsWhitespace).reverse

/-- Auxiliary for the regex replacement of every whitespace run by a single
space; the flag records whether the previous character was whitespace. -/
def collapseWsAux : Bool → List Char → List Char
  | _, [] => []
  | prev, c :: cs =>
    if jsWhitespace c then
      if prev then collapseWsAux true cs else ' ' :: collapseWsAux true cs
    else
      c :: collapseWsAux false cs

/-- Model of the regex replacement of backslash-s-plus runs by one space. -/
def collapseWs (l : List Char) : List Char :=
  collapseWsAux false l

/-- normalizeName from src/db/supabase.ts: lowercase, trim, NFD (identity on
the modelled range), strip combining marks U+0300-U+036F, strip characters
outside backslash-w and backslash-s, collapse whitespace runs to one space. -/
def normalizeName (l : List Char) : List Char :=
  collapseWs
    (((jsTrim (l.map asciiLower)).filter (fun c => !combining0300 c)).filter
      (fun c => wordChar c || jsWhitespace c))

example : normalizeName "! a".data = " a".data := by decide
example : normalizeName (normalizeName "! a".data) = "a".data := by decide
example : normalizeName "  Jane   DOE_9  ".data = "jane doe_9".data := by decide

/-- A character of the canonical image of normalizeName: a lowercase-range
word character or the plain space. -/
def canonChar (c : Char) : Bool :=
  (wordChar c && !upperAZ c) || c = ' '

/-- Adjacent characters are not both whitespace. -/
def wsApart (a b : Char) : Prop :=
  ¬(jsWhitespace a = true ∧ jsWhitespace b = true)

/-- Numeric value of a run of decimal digits. -/
def digitsVal (l : List Char) : Nat :=
  l.foldl (fun acc c => 10 * acc + (c.toNat - '0'.toNat)) 0

/-- An exact JavaScript number value, kept as an integer fraction so that
concrete runs reduce inside the kernel; every construction below keeps the
denominator positive. -/
structure JsNum where
  num : Int
  den : Int
  deriving Repr, DecidableEq

/-- Embed an integer. -/
def JsNum.ofInt (n : Int) : JsNum :=
  ⟨n, 1⟩

/-- Negation. -/
def JsNum.neg (a : JsNum) : JsNum :=
  ⟨-a.num, a.den⟩

/-- Addition. -/
def JsNum.add (a b : JsNum) : JsNum :=
  ⟨a.num * b.den + b.num * a.den, a.den * b.den⟩

/-- Multiplication by an integer constant. -/
def JsNum.smul (k : Int) (a : JsNum) : JsNum :=
  ⟨k * a.num, a.den⟩

/-- Numeric strict comparison, valid for positive denominators. -/
def JsNum.ltB (a b : JsNum) : Bool :=
  a.num * b.den < b.num * a.den

/-- The rational value of a JsNum. -/
def JsNum.toQ (a : JsNum) : ℚ :=
  (a.num : ℚ) / (a.den : ℚ)

/-- Unsigned part of the parseFloat model: longest digit run, optionally
followed by a point and a further digit run; at least one digit overall.
Exponent forms and the Infinity literal are not modelled (no modelled call
site feeds them). -/
def jsParseFloatUnsigned (l : List Char) : Option JsNum :=
  let intPart := l.takeWhile Char.isDigit
  let rest := l.dropWhile Char.isDigit
  match rest with
  | '.' :: tail =>
    let fracPart := tail.takeWhile Char.isDigit
    if intPart.isEmpty && fracPart.isEmpty then none
    else
      some ⟨digitsVal intPart * 10 ^ fracPart.length + digitsVal fracPart,
        10 ^ fracPart.length⟩
  | _ => if intPart.isEmpty then none else some (JsNum.ofInt (digitsVal intPart))

/-- Model of JavaScript parseFloat on an already trimmed token: optional
sign then an unsigned decimal literal, parsed by longest valid run;
none models NaN. -/
def jsParseFloat (l : List Char) : Option JsNum :=
  match l with
  | '+' :: rest => jsParseFloatUnsigned rest
  | '-' :: rest => (jsParseFloatUnsigned rest).map JsNum.neg
  | _ => jsParseFloatUnsigned l

/-- Model of JavaScript parseInt with radix 10: strip leading whitespace,
optional sign, then the longest run of decimal digits; none models NaN. -/
def jsParseInt (l : List Char) : Option ℤ :=
  let t := l.dropWhile jsWhitespace
  match t with
  | '+' :: rest =>
    let d := rest.takeWhile Char.isDigit
    if d.isEmpty then none else some (digitsVal d : ℤ)
  | '-' :: rest =>
    let d := rest.takeWhile Char.isDigit
    if d.isEmpty then none else some (-(digitsVal d : ℤ))
  | _ =>
    let d := t.takeWhile Char.isDigit
    if d.isEmpty then none else some (digitsVal d : ℤ)

/-- Model of JavaScript Math.round, round half toward positive infinity:
the floor of x plus one half, computed on the fraction representation. -/
def jsRound (a : JsNum) : ℤ :=
  Int.fdiv (2 * a.num + a.den) (2 * a.den)

example : jsParseFloat "-5".data = some ⟨-5, 1⟩ := by decide
example : jsParseFloat "12abc".data = some ⟨12, 1⟩ := by decide
example : jsParseFloat "".data = none := by decide
example : jsParseFloat "-.5".data = some ⟨-5, 10⟩ := by decide
example : jsParseInt " -5x".data = some (-5) := by decide
example : jsParseInt "-".data = none := by decide
example : jsRound ⟨19, 2⟩ = 10 := by decide
example : jsRound ⟨-1, 2⟩ = 0 := by decide

/-- parseTimeToSeconds from src/scraper/browser.ts: reject the empty
string, split on the colon, parse every token with parseFloat after a
trim, reject when some token fails to parse, interpret two tokens as
MM:SS and three tokens as HH:MM:SS, and reject any other token count. -/
def parseTimeToSeconds (time : List Char) : Option JsNum :=
  if time.isEmpty then none
  else
    let parts := (time.splitOn ':').map (fun p => jsParseFloat (jsTrim p))
    if parts.any (fun p => p.isNone) then none
    else
      match parts with
      | [some h, some m, some s] => some ((JsNum.smul 3600 h).add ((JsNum.smul 60 m).add s))
      | [some m, some s] => some ((JsNum.smul 60 m).add s)
      | _ => none

example : (parseTimeToSeconds "12:34".data).map JsNum.toQ = some 754 := by
  have h : parseTimeToSeconds "12:34".data = some ⟨754, 1⟩ := by decide
  rw [h]
  norm_num [JsNum.toQ, Option.map]
example : parseTimeToSeconds "12:34".data = some ⟨754, 1⟩ := by decide
example : parseTimeToSeconds "1:02:03".data = some ⟨3723, 1⟩ := by decide
example : parseTimeToSeconds "90".data = none := by decide
example : parseTimeToSeconds "1:2:3:4".data = none := by decide
example : parseTimeToSeconds "a:34".data = none := by decide
example : parseTimeToSeconds "-5:30".data = some ⟨-270, 1⟩ := by decide
example : parseTimeToSeconds "".data = none := by decide

/-- A checkpoint as consumed by validateCheckpointProgression: an optional
cumulative time string and a numeric checkpoint order. -/
structure Checkpoint where
  cumulativeTime : Option (List Char)
  checkpointOrder : Int
  deriving Repr, DecidableEq

/-- Stable insertion of a checkpoint after every element whose order is
less than or equal, modelling the stable JS Array.prototype.sort with the
numeric difference comparator. -/
def insertByOrder (x : Checkpoint) : List Checkpoint → List Checkpoint
  | [] => [x]
  | y :: ys =>
    if y.checkpointOrder ≤ x.checkpointOrder then y :: insertByOrder x ys
    else x :: y :: ys

/-- Stable sort by checkpointOrder. -/
def sortByOrder (l : List Checkpoint) : List Checkpoint :=
  l.foldl (fun acc x => insertByOrder x acc) []

/-- Loop body of validateCheckpointProgression: skip checkpoints whose
cumulative time is absent, empty (falsy) or unparseable, and fail when a
parsed time is below the running last time. -/
def validateAux : JsNum → List Checkpoint → Bool
  | _, [] => true
  | lastTime, cp :: rest =>
    match cp.cumulativeTime with
    | none => validateAux lastTime rest
    | some s =>
      if s.isEmpty then validateAux lastTime rest
      else
        match parseTimeToSeconds s with
        | none => validateAux lastTime rest
        | some t => if JsNum.ltB t lastTime then false else validateAux t rest

/-- validateCheckpointProgression from src/scraper/browser.ts: sort by
checkpointOrder, then scan with a last-time accumulator starting at 0. -/
def validateCheckpointProgression (checkpoints : List Checkpoint) : Bool :=
  validateAux (JsNum.ofInt 0) (sortByOrder checkpoints)

/-- The time the progression scan would read off one checkpoint: none for
an absent, empty or unparseable cumulative time. -/
def checkpointParse (cp : Checkpoint) : Option JsNum :=
  match cp.cumulativeTime with
  | none => none
  | some s => if s.isEmpty then none else parseTimeToSeconds s

/-- The parseable cumulative times of the checkpoints sorted by
checkpointOrder, skipping absent, empty and unparseable entries, in the
fraction representation. -/
def parsedTimesRaw (checkpoints : List Checkpoint) : List JsNum :=
  (sortByOrder checkpoints).filterMap checkpointParse

/-- The sequence the claim speaks about: the parseable cumulative times of
the checkpoints sorted by checkpointOrder, read off as rational numbers. -/
def parsedCumulativeTimes (checkpoints : List Checkpoint) : List ℚ :=
  (parsedTimesRaw checkpoints).map JsNum.toQ

example :
    validateCheckpointProgression
      [⟨some "10:00".data, 2⟩, ⟨some "5:00".data, 1⟩, ⟨none, 3⟩] = true := by decide
example :
    validateCheckpointProgression
      [⟨some "5:00".data, 2⟩, ⟨some "10:00".data, 1⟩] = false := by decide
example : validateCheckpointProgression [⟨some "-5:30".data, 1⟩] = false := by decide
example : parsedCumulativeTimes [⟨some "-5:30".data, 1⟩] = [-270] := by
  have h : parsedTimesRaw [⟨some "-5:30".data, 1⟩] = [⟨-270, 1⟩] := by decide
  rw [parsedCumulativeTimes, h]
  norm_num [JsNum.toQ]

/-- A JavaScript value as it reaches parseResultItem: a missing property,
null, or a string. -/
inductive JsVal where
  | undef : JsVal
  | vnull : JsVal
  | vstr : List Char → JsVal
  deriving Repr, DecidableEq

/-- An API result row: property names with their values. -/
abbrev Item : Type :=
  List (String × JsVal)

/-- Property access on an object: the first binding, or undefined. -/
def lookupItem (item : Item) (k : String) : JsVal :=
  match item.find? (fun p => p.1 = k) with
  | some p => p.2
  | none => JsVal.undef

/-- The String(value) conversion for the modelled values. -/
def jsToString : JsVal → List Char
  | JsVal.undef => "undefined".data
  | JsVal.vnull => "null".data
  | JsVal.vstr s => s

/-- getString of parseResultItem from src/scraper/utils.ts: the first key
whose value is neither undefined nor null yields the trimmed string. -/
def getString (item : Item) : List String → List Char
  | [] => []
  | k :: ks =>
    match lookupItem item k with
    | JsVal.undef => getString item ks
    | JsVal.vnull => getString item ks
    | JsVal.vstr s => jsTrim s

/-- getNumber of parseResultItem from src/scraper/utils.ts: the first key
that is present and whose stringified value has a parseInt value yields
that value, otherwise the default. -/
def getNumber (item : Item) (keys : List String) (defaultValue : Int) : Int :=
  match keys with
  | [] => defaultValue
  | k :: ks =>
    match lookupItem item k with
    | JsVal.undef => getNumber item ks defaultValue
    | v =>
      match jsParseInt (jsToString v) with
      | some n => n
      | none => getNumber item ks defaultValue

/-- The JavaScript or-undefined idiom on a string: empty becomes absent. -/
def strOrUndef (s : List Char) : Option (List Char) :=
  if s.isEmpty then none else some s

/-- The JavaScript or-undefined idiom on a number: zero becomes absent. -/
def numOrUndef (n : Int) : Option Int :=
  if n = 0 then none else some n

/-- A scraped race result as produced by parseResultItem. -/
structure RaceResult where
  position : Int
  bibNumber : List Char
  name : List Char
  gender : List Char
  category : List Char
  finishTime : List Char
  pace : Option (List Char)
  genderPosition : Option Int
  categoryPosition : Option Int
  country : Option (List Char)
  time5km : Option (List Char)
  time10km : Option (List Char)
  time13km : Option (List Char)
  time15km : Option (List Char)
  deriving Repr, DecidableEq

/-- The alias keys for the gender-position field. -/
def genderRankKeys : List String :=
  ["gender_rank", "genderRank", "gender_position", "sex_rank"]

/-- The alias keys for the category-position field. -/
def categoryRankKeys : List String :=
  ["category_rank", "categoryRank", "cat_rank", "age_group_rank"]

/-- parseResultItem from src/scraper/utils.ts: map the permissive field
aliases onto the result schema; rows without a name are rejected. -/
def parseResultItem (item : Item) (defaultPosition : Int) : Option RaceResult :=
  let name := getString item
    ["name", "Name", "athlete", "Athlete", "runner", "Runner",
     "full_name", "fullName", "participant", "firstname", "first_name"]
  if name.isEmpty then none
  else
    some
      { position := getNumber item
          ["position", "Position", "pos", "Pos", "rank", "Rank", "place",
           "Place", "overall_rank"] defaultPosition
        bibNumber := getString item
          ["bib", "Bib", "bibNumber", "BibNumber", "number", "Number",
           "bib_number", "bibNo"]
        name := name
        gender := getString item ["gender", "Gender", "sex", "Sex", "g"]
        category := getString item
          ["category", "Category", "ageGroup", "AgeGroup", "division",
           "Division", "cat", "age_group"]
        finishTime := getString item
          ["time", "Time", "finishTime", "FinishTime", "chipTime", "ChipTime",
           "netTime", "NetTime", "finish_time", "net_time", "gun_time"]
        pace := strOrUndef (getString item
          ["pace", "Pace", "avgPace", "AvgPace", "avg_pace"])
        genderPosition := numOrUndef (getNumber item genderRankKeys 0)
        categoryPosition := numOrUndef (getNumber item categoryRankKeys 0)
        country := strOrUndef (getString item
          ["country", "Country", "nation", "Nation"])
        time5km := strOrUndef (getString item
          ["time_5km", "time5km", "5km", "5km_time"])
        time10km := strOrUndef (getString item
          ["time_10km", "time10km", "10km", "10km_time"])
        time13km := strOrUndef (getString item
          ["time_13km", "time13km", "13km", "13km_time"])
        time15km := strOrUndef (getString item
          ["time_15km", "time15km", "15km", "15km_time"]) }

example :
    (parseResultItem [("name", JsVal.vstr "Jane".data),
        ("gender_rank", JsVal.vstr "-5".data)] 1).map RaceResult.genderPosition =
      some (some (-5)) := by decide
example :
    (parseResultItem [("name", JsVal.vstr "Jane".data),
        ("gender_rank", JsVal.vstr "-".data)] 1).map RaceResult.genderPosition =
      some none := by decide
example :
    (parseResultItem [("name", JsVal.vstr "Jane".data),
        ("gender_rank", JsVal.vstr "".data)] 1).map RaceResult.genderPosition =
      some none := by decide
example : parseResultItem [("pos", JsVal.vstr "4".data)] 9 = none := by decide

/-- A match candidate of the athlete matcher: athlete, Fuse score after
the or-one idiom, and derived confidence. -/
structure MatchCandidate where
  athleteId : Nat
  score : JsNum
  confidence : Int
  deriving Repr, DecidableEq

/-- The JavaScript match.score-or-one idiom: a zero score is falsy and is
replaced by one. -/
def scoreOr1 (s : JsNum) : JsNum :=
  if s.num = 0 then JsNum.ofInt 1 else s

/-- findMatchesForResult from src/matching/athlete-matcher.ts, with the
external Fuse search abstracted to its output (athlete id and score):
keep the candidates whose raw score is below the threshold and derive
confidence as round of one minus the or-one score, times 100. -/
def findMatchesForResult (raw : List (Nat × JsNum)) (threshold : JsNum) :
    List MatchCandidate :=
  (raw.filter (fun p => JsNum.ltB p.2 threshold)).map
    (fun p =>
      { athleteId := p.1
        score := scoreOr1 p.2
        confidence := jsRound (JsNum.smul 100 ((JsNum.ofInt 1).add (scoreOr1 p.2).neg)) })

/-- The lowered candidate-generation threshold used by autoMatchResults. -/
def autoMatchThreshold : JsNum :=
  ⟨3, 10⟩

/-- The decision of one autoMatchResults loop iteration: the athlete to
link when there is exactly one candidate and its confidence reaches the
confidence threshold, otherwise none (the result is skipped). -/
def autoMatchDecision (raw : List (Nat × JsNum)) (confidenceThreshold : Int) :
    Option Nat :=
  match findMatchesForResult raw autoMatchThreshold with
  | [m] => if confidenceThreshold ≤ m.confidence then some m.athleteId else none
  | _ => none

/-- autoMatchResults from src/matching/athlete-matcher.ts over the list of
unmatched results (each with its abstracted Fuse output): returns the
matched and skipped counters together with the links that were applied. -/
def autoMatchResults (confidenceThreshold : Int)
    (unmatched : List (Nat × List (Nat × JsNum))) :
    Nat × Nat × List (Nat × Nat) :=
  unmatched.foldl
    (fun acc r =>
      match autoMatchDecision r.2 confidenceThreshold with
      | some a => (acc.1 + 1, acc.2.1, acc.2.2 ++ [(r.1, a)])
      | none => (acc.1, acc.2.1 + 1, acc.2.2))
    (0, 0, [])

example :
    autoMatchDecision [(7, ⟨1, 10⟩)] 90 = some 7 := by decide
example :
    autoMatchDecision [(7, ⟨0, 1⟩)] 90 = none := by decide
example :
    autoMatchDecision [(7, ⟨0, 10⟩), (8, ⟨1, 4⟩)] 90 = none := by decide

/-- The endpoint status tokens of the monitoring state machine. -/
inductive StatusTok where
  | up : StatusTok
  | down : StatusTok
  | unknown : StatusTok
  deriving Repr, DecidableEq

/-- Error classification carried by SiteStatus and the status rows; the
source carries message strings, abstracted here to their kind. -/
inductive ErrKind where
  | transport : ErrKind
  | httpMain : Int → ErrKind
  | httpApi : Int → ErrKind
  deriving Repr, DecidableEq

/-- One probe as handed to saveEndpointStatus. -/
structure Probe where
  status : StatusTok
  statusCode : Option Int
  responseTimeMs : Option Int
  hasResults : Bool
  errorMessage : Option ErrKind
  deriving Repr, DecidableEq

/-- A row of endpoint_status_history. -/
structure HistoryRow where
  status : StatusTok
  statusCode : Option Int
  responseTimeMs : Option Int
  hasResults : Bool
  errorMessage : Option ErrKind
  deriving Repr, DecidableEq

/-- The endpoint_status_current row of one endpoint. -/
structure CurrentRow where
  status : StatusTok
  statusCode : Option Int
  responseTimeMs : Option Int
  hasResults : Bool
  lastChecked : Nat
  lastStatusChange : Nat
  consecutiveFailures : Int
  deriving Repr, DecidableEq

/-- The persisted monitoring state of one endpoint: its append-only
history and its optional current row. -/
structure MonitorState where
  history : List HistoryRow
  current : Option CurrentRow
  deriving Repr, DecidableEq

/-- saveEndpointStatus from the storage monitoring module: read the
previous current row, append a history row, and upsert the current row;
last-status-change advances only when the token changed or no previous
row exists, and consecutive-failures counts successive down probes. -/
def saveEndpointStatus (now : Nat) (st : MonitorState) (p : Probe) : MonitorState :=
  let previousStatus := st.current
  let statusChanged :=
    match previousStatus with
    | none => true
    | some prev => prev.status ≠ p.status
  let hist := st.history ++
    [{ status := p.status, statusCode := p.statusCode,
       responseTimeMs := p.responseTimeMs, hasResults := p.hasResults,
       errorMessage := p.errorMessage : HistoryRow }]
  let cur : CurrentRow :=
    if statusChanged then
      { status := p.status, statusCode := p.statusCode,
        responseTimeMs := p.responseTimeMs, hasResults := p.hasResults,
        lastChecked := now, lastStatusChange := now
        consecutiveFailures :=
          if p.status = StatusTok.down then
            (match previousStatus with
             | some prev => prev.consecutiveFailures
             | none => 0) + 1
          else 0 }
    else
      match previousStatus with
      | some prev =>
        { status := p.status, statusCode := p.statusCode,
          responseTimeMs := p.responseTimeMs, hasResults := p.hasResults,
          lastChecked := now, lastStatusChange := prev.lastStatusChange
          consecutiveFailures :=
            if p.status = StatusTok.down then prev.consecutiveFailures + 1
            else 0 }
      | none =>
        { status := p.status, statusCode := p.statusCode,
          responseTimeMs := p.responseTimeMs, hasResults := p.hasResults,
          lastChecked := now, lastStatusChange := now
          consecutiveFailures := if p.status = StatusTok.down then 1 else 0 }
  { history := hist, current := some cur }

/-- The body of an HTTP response as axios exposes it: a string, an object,
or nothing (a falsy value). -/
inductive ApiBody where
  | bstr : List Char → ApiBody
  | bobj : ApiBody
  | bnone : ApiBody
  deriving Repr, DecidableEq

/-- Outcome of one HTTP GET: a transport failure (DNS, TCP, timeout) or a
response with its status code and body. -/
inductive FetchOutcome where
  | transportFailure : FetchOutcome
  | resp : Int → ApiBody → FetchOutcome
  deriving Repr, DecidableEq

/-- The SiteStatus payload of endpoint-monitor. -/
structure SiteStatus where
  isUp : Bool
  statusCode : Int
  responseTime : Int
  hasResults : Bool
  error : Option ErrKind
  deriving Repr, DecidableEq

/-- Substring test modelling String.prototype.includes. -/
def startsWithSeq : List Char → List Char → Bool
  | _, [] => true
  | [], _ :: _ => false
  | a :: as, b :: bs => a = b && startsWithSeq as bs

/-- Whether pat occurs contiguously inside the list. -/
def hasInfix (pat : List Char) : List Char → Bool
  | [] => pat.isEmpty
  | c :: t => startsWithSeq (c :: t) pat || hasInfix pat t

/-- checkSiteStatus from src/monitoring/endpoint-monitor.ts.  The cheerio
extraction of the embedded results descriptor is abstracted to its result
(the API URL of the first race, when present); the two GETs are abstracted
to their outcomes.  A transport failure of either GET is caught by the
surrounding try and classified down with status code 0. -/
def checkSiteStatus (main : FetchOutcome) (apiUrl : Option (List Char))
    (api : FetchOutcome) (elapsed : Int) : SiteStatus :=
  match main with
  | FetchOutcome.transportFailure =>
    { isUp := false, statusCode := 0, responseTime := elapsed,
      hasResults := false, error := some ErrKind.transport }
  | FetchOutcome.resp s _ =>
    if s ≥ 400 then
      { isUp := false, statusCode := s, responseTime := elapsed,
        hasResults := false, error := some (ErrKind.httpMain s) }
    else
      match apiUrl with
      | none =>
        { isUp := true, statusCode := 200, responseTime := elapsed,
          hasResults := false, error := none }
      | some _ =>
        match api with
        | FetchOutcome.transportFailure =>
          { isUp := false, statusCode := 0, responseTime := elapsed,
            hasResults := false, error := some ErrKind.transport }
        | FetchOutcome.resp as abody =>
          let isUp := 200 ≤ as && as < 400
          let hasResults :=
            if isUp then
              match abody with
              | ApiBody.bstr str =>
                if str.isEmpty then false
                else decide (str.length > 100) && !hasInfix "error".data str
              | ApiBody.bobj => true
              | ApiBody.bnone => false
            else false
          { isUp := isUp, statusCode := as, responseTime := elapsed,
            hasResults := hasResults,
            error := if isUp then none else some (ErrKind.httpApi as) }

/-- The MonitorResult payload of monitorEndpoint. -/
structure MonitorResult where
  previousStatus : Option StatusTok
  stateChanged : Bool
  wentUp : Bool
  wentDown : Bool
  deriving Repr, DecidableEq

/-- monitorEndpoint from src/monitoring/endpoint-monitor.ts: derive the
previous and current tokens, detect an edge only when the previous token
is non-unknown and differs, persist the probe, and report the edges. -/
def monitorEndpoint (st : MonitorState) (currentStatus : SiteStatus) (now : Nat) :
    MonitorResult × MonitorState :=
  let previousStatusLabel :=
    match st.current with
    | some prev => prev.status
    | none => StatusTok.unknown
  let currentStatusLabel := if currentStatus.isUp then StatusTok.up else StatusTok.down
  let stateChanged :=
    previousStatusLabel ≠ StatusTok.unknown && previousStatusLabel ≠ currentStatusLabel
  let wentUp := stateChanged && currentStatus.isUp
  let wentDown := stateChanged && !currentStatus.isUp
  let st2 := saveEndpointStatus now st
    { status := currentStatusLabel, statusCode := some currentStatus.statusCode,
      responseTimeMs := some currentStatus.responseTime,
      hasResults := currentStatus.hasResults,
      errorMessage := currentStatus.error }
  ({ previousStatus :=
       if previousStatusLabel = StatusTok.unknown then none
       else some previousStatusLabel,
     stateChanged := stateChanged, wentUp := wentUp, wentDown := wentDown }, st2)

/-- The lifecycle states of a scrape job. -/
inductive JobStatus where
  | pending : JobStatus
  | running : JobStatus
  | completed : JobStatus
  | failed : JobStatus
  deriving Repr, DecidableEq

/-- A scrape_jobs row; retryCount models the retry_count-or-zero read of
the source, so the null column is collapsed to zero. -/
structure ScrapeJobRow where
  id : Nat
  status : JobStatus
  retryCount : Nat
  maxRetries : Nat
  nextRetryAt : Option Nat
  errorMessage : Option (List Char)
  deriving Repr, DecidableEq

/-- RETRY_INTERVALS_MS from src/jobs/scrape-retry-queue.ts: 5, 15 and 45
minutes in milliseconds. -/
def RETRY_INTERVALS_MS : List Nat :=
  [5 * 60 * 1000, 15 * 60 * 1000, 45 * 60 * 1000]

/-- scheduleRetry from src/jobs/scrape-retry-queue.ts: bail out when the
next retry count would exceed the interval count, otherwise compute the
retry instant now plus the interval indexed by the current retry count
(the JavaScript or-fallback to the last interval fires only out of
bounds, since every interval is non-zero). -/
def scheduleRetry (now : Nat) (currentRetryCount : Nat) : Option (Nat × Nat) :=
  let nextRetryCount := currentRetryCount + 1
  if nextRetryCount > RETRY_INTERVALS_MS.length then none
  else
    let intervalMs :=
      match RETRY_INTERVALS_MS.get? currentRetryCount with
      | some v => v
      | none => 45 * 60 * 1000
    some (now + intervalMs, nextRetryCount)

/-- Modelled from the spec: resetJobForRetry lives in src/storage/supabase.ts,
which is not part of the snapshot; the drainer sets the claimed job running,
which requires falsifying the queue predicate (status failed and nextRetryAt
non-null), so the retry instant is cleared. -/
def resetJobForRetry (job : ScrapeJobRow) : ScrapeJobRow :=
  { job with status := JobStatus.running, nextRetryAt := none }

/-- Modelled from the spec: scheduleJobRetry lives in src/storage/supabase.ts,
which is not part of the snapshot; it persists the computed retry instant and
the incremented retry count on the failed job. -/
def scheduleJobRetry (job : ScrapeJobRow) (t : Nat) (c : Nat) : ScrapeJobRow :=
  { job with status := JobStatus.failed, nextRetryAt := some t, retryCount := c }

/-- The catch branch of processRetryJob from src/jobs/scrape-retry-queue.ts,
applied to the job row as it stands after resetJobForRetry: mark the job
failed with the error message, then schedule another retry only when the
retry count read from the fetched job is below the interval count minus
one; otherwise the job is left permanently failed. -/
def processRetryJobFailure (job : ScrapeJobRow) (now : Nat)
    (errorMessage : List Char) : ScrapeJobRow :=
  let afterReset := resetJobForRetry job
  let afterUpdate :=
    { afterReset with status := JobStatus.failed, errorMessage := some errorMessage }
  let currentRetryCount := job.retryCount
  let willRetry := currentRetryCount < RETRY_INTERVALS_MS.length - 1
  if willRetry then
    match scheduleRetry now currentRetryCount with
    | some (t, c) => scheduleJobRetry afterUpdate t c
    | none => afterUpdate
  else afterUpdate

example :
    (processRetryJobFailure ⟨1, JobStatus.failed, 0, 3, none, none⟩ 1000 "x".data).nextRetryAt =
      some (1000 + 300000) := by decide
example :
    (processRetryJobFailure ⟨1, JobStatus.failed, 1, 3, none, none⟩ 1000 "x".data).nextRetryAt =
      some (1000 + 900000) := by decide
example :
    (processRetryJobFailure ⟨1, JobStatus.failed, 2, 3, none, none⟩ 1000 "x".data).nextRetryAt =
      none := by decide
example : scheduleRetry 1000 2 = some (1000 + 2700000, 3) := by decide

/-- A race_results row with the columns of the persistence schema. -/
structure RaceResultRow where
  id : Nat
  eventId : Nat
  athleteId : Option Nat
  position : Option Int
  bibNumber : Option (List Char)
  name : List Char
  normalizedName : Option (List Char)
  gender : Option (List Char)
  category : Option (List Char)
  finishTime : Option (List Char)
  pace : Option (List Char)
  genderPosition : Option Int
  categoryPosition : Option Int
  country : Option (List Char)
  time5km : Option (List Char)
  time10km : Option (List Char)
  time13km : Option (List Char)
  time15km : Option (List Char)
  metadata : Option Item
  createdAt : Nat
  distanceId : Option Nat
  gunTime : Option (List Char)
  chipTime : Option (List Char)
  timeBehind : Option (List Char)
  age : Option Int
  club : Option (List Char)
  status : List Char
  validatedAt : Option Nat
  validationErrors : Option Item
  deriving DecidableEq

/-- A timing_checkpoints row (the fields relevant to ownership). -/
structure CheckpointRow where
  id : Nat
  resultId : Nat
  checkpointName : List Char
  checkpointOrder : Int
  splitTime : Option (List Char)
  cumulativeTime : Option (List Char)
  deriving DecidableEq

/-- The tables touched or owned by result linking. -/
structure ResultsDb where
  raceResults : List RaceResultRow
  timingCheckpoints : List CheckpointRow
  deriving DecidableEq

/-- linkResultToAthlete from the storage module inside
src/jobs/scrape-retry-queue.ts: update athlete_id on the race_results rows
whose id matches, leaving every other column and table untouched. -/
def linkResultToAthlete (db : ResultsDb) (resultId : Nat) (athleteId : Nat) :
    ResultsDb :=
  { db with
    raceResults := db.raceResults.map
      (fun r => if r.id = resultId then { r with athleteId := some athleteId } else r) }

/-- linkResult from src/matching/athlete-matcher.ts: a delegation to
linkResultToAthlete. -/
def linkResult (db : ResultsDb) (resultId : Nat) (athleteId : Nat) : ResultsDb :=
  linkResultToAthlete db resultId athleteId

/-- The body condition named by the specification for the liveness probe:
a string longer than 100 characters not containing the literal error
word, or any object. -/
def bodyNonemptySpec : ApiBody → Bool
  | ApiBody.bstr s => decide (s.length > 100) && !hasInfix "error".data s
  | ApiBody.bobj => true
  | ApiBody.bnone => false

/-- C4: every probe persisted by saveEndpointStatus appends one history
row and upserts the current row; last-status-change is set to now exactly
when the token differs from the previously persisted one or no previous
row exists, and otherwise carries the prior value; consecutive-failures
becomes the previous value plus one on a down probe and zero on any other
probe. -/
theorem saveEndpointStatus_spec (now : Nat) (st : MonitorState) (p : Probe) :
    (saveEndpointStatus now st p).history =
      st.history ++
        [{ status := p.status, statusCode := p.statusCode,
           responseTimeMs := p.responseTimeMs, hasResults := p.hasResults,
           errorMessage := p.errorMessage }] ∧
    (saveEndpointStatus now st p).current.map CurrentRow.status = some p.status ∧
    (saveEndpointStatus now st p).current.map CurrentRow.lastChecked = some now ∧
    (saveEndpointStatus now st p).current.map CurrentRow.consecutiveFailures =
      some (if p.status = StatusTok.down then
              ((st.current.map CurrentRow.consecutiveFailures).getD 0) + 1
            else 0) ∧
    (st.current = none →
      (saveEndpointStatus now st p).current.map CurrentRow.lastStatusChange = some now) ∧
    (∀ prev, st.current = some prev →
      (saveEndpointStatus now st p).current.map CurrentRow.lastStatusChange =
        some (if prev.status = p.status then prev.lastStatusChange else now)) := by
  unfold saveEndpointStatus
  rcases h : st.current with _ | prev
  · by_cases hd : p.status = StatusTok.down <;>
      simp [h, hd, Option.map, Option.getD]
  · by_cases hs : prev.status = p.status
    · by_cases hd : p.status = StatusTok.down <;>
        simp [h, hs, hd, Option.map, Option.getD]
    · by_cases hd : p.status = StatusTok.down
      · have hs2 : ¬(prev.status = StatusTok.down) := by
          rw [← hd]
          exact hs
        simp [h, hs, hs2, hd, Option.map, Option.getD]
      · simp [h, hs, hd, Option.map, Option.getD]

/-- Witness for saveEndpointStatus_spec: a down probe over a previously up
row advances last-status-change and counts one failure. -/
theorem saveEndpointStatus_spec_witness :
    (saveEndpointStatus 10
        { history := [],
          current := some
            { status := StatusTok.up, statusCode := some 200,
              responseTimeMs := some 5, hasResults := true, lastChecked := 4,
              lastStatusChange := 3, consecutiveFailures := 0 } }
        { status := StatusTok.down, statusCode := some 500,
          responseTimeMs := some 7, hasResults := false,
          errorMessage := some (ErrKind.httpMain 500) }).current.map
        CurrentRow.lastStatusChange = some 10 := by
  have h := (saveEndpointStatus_spec 10
    { history := [],
      current := some
        { status := StatusTok.up, statusCode := some 200,
          responseTimeMs := some 5, hasResults := true, lastChecked := 4,
          lastStatusChange := 3, consecutiveFailures := 0 } }
    { status := StatusTok.down, statusCode := some 500,
      responseTimeMs := some 7, hasResults := false,
      errorMessage := some (ErrKind.httpMain 500) }).2.2.2.2.2
  have h2 := h _ rfl
  simpa using h2

/-- C9: monitorEndpoint emits a wentUp edge exactly when the previously
persisted token is down and the probe is up, and a wentDown edge exactly
when the previously persisted token is up and the probe is down; no edge
is emitted on a first probe or on an unchanged token, and the observed
token is persisted as the new current status. -/
theorem monitorEndpoint_edges (st : MonitorState) (site : SiteStatus) (now : Nat) :
    ((monitorEndpoint st site now).1.wentUp = true ↔
      (st.current.map CurrentRow.status = some StatusTok.down ∧ site.isUp = true)) ∧
    ((monitorEndpoint st site now).1.wentDown = true ↔
      (st.current.map CurrentRow.status = some StatusTok.up ∧ site.isUp = false)) ∧
    (st.current = none →
      (monitorEndpoint st site now).1.stateChanged = false ∧
      (monitorEndpoint st site now).1.wentUp = false ∧
      (monitorEndpoint st site now).1.wentDown = false) ∧
    (st.current.map CurrentRow.status =
        some (if site.isUp then StatusTok.up else StatusTok.down) →
      (monitorEndpoint st site now).1.wentUp = false ∧
      (monitorEndpoint st site now).1.wentDown = false) ∧
    ((monitorEndpoint st site now).2.current.map CurrentRow.status =
      some (if site.isUp then StatusTok.up else StatusTok.down)) := by
  have hsave := saveEndpointStatus_spec now st
    { status := if site.isUp then StatusTok.up else StatusTok.down,
      statusCode := some site.statusCode,
      responseTimeMs := some site.responseTime,
      hasResults := site.hasResults,
      errorMessage := site.error }
  refine ⟨?_, ?_, ?_, ?_, by simpa [monitorEndpoint] using hsave.2.1⟩
  · unfold monitorEndpoint
    rcases h : st.current with _ | prev
    · cases hu : site.isUp <;> simp [h, hu, Option.map]
    · cases hu : site.isUp <;> rcases hp : prev.status with _ | _ | _ <;>
        simp [h, hp, hu, Option.map]
  · unfold monitorEndpoint
    rcases h : st.current with _ | prev
    · cases hu : site.isUp <;> simp [h, hu, Option.map]
    · cases hu : site.isUp <;> rcases hp : prev.status with _ | _ | _ <;>
        simp [h, hp, hu, Option.map]
  · intro h
    unfold monitorEndpoint
    cases hu : site.isUp <;> simp [h, hu]
  · intro h
    unfold monitorEndpoint
    rcases hc : st.current with _ | prev
    · rw [hc] at h
      simp at h
    · cases hu : site.isUp <;> rcases hp : prev.status with _ | _ | _ <;>
        simp_all [Option.map]

/-- Witness for monitorEndpoint_edges: a probe that finds the endpoint up
after a persisted down row emits the wentUp edge. -/
theorem monitorEndpoint_edges_witness :
    (monitorEndpoint
        { history := [],
          current := some
            { status := StatusTok.down, statusCode := some 500,
              responseTimeMs := some 5, hasResults := false, lastChecked := 4,
              lastStatusChange := 3, consecutiveFailures := 2 } }
        { isUp := true, statusCode := 200, responseTime := 9,
          hasResults := true, error := none } 10).1.wentUp = true := by
  exact (monitorEndpoint_edges
    { history := [],
      current := some
        { status := StatusTok.down, statusCode := some 500,
          responseTimeMs := some 5, hasResults := false, lastChecked := 4,
          lastStatusChange := 3, consecutiveFailures := 2 } }
    { isUp := true, statusCode := 200, responseTime := 9,
      hasResults := true, error := none } 10).1.mpr (by constructor <;> rfl)

/-- C5 counterexample: with the descriptor present and the API replying
200 with an empty body, checkSiteStatus classifies the endpoint up even
though the body fails the non-empty test, refuting the claimed
equivalence of up with 2xx-3xx and a non-empty body. -/
theorem checkSiteStatus_counterexample :
    (checkSiteStatus (FetchOutcome.resp 200 ApiBody.bnone) (some "u".data)
        (FetchOutcome.resp 200 (ApiBody.bstr [])) 5).isUp = true ∧
    bodyNonemptySpec (ApiBody.bstr []) = false := by
  constructor <;> rfl

/-- C5 amended: checkSiteStatus classifies down on a transport failure or
a main-page status of at least 400; with no embedded descriptor it
classifies up without results; with the descriptor present, up holds if
and only if the follow-up status is 2xx-3xx, while the non-empty body
test governs has-results (conjoined with up), not up itself. -/
theorem checkSiteStatus_spec (main : FetchOutcome) (apiUrl : Option (List Char))
    (api : FetchOutcome) (elapsed : Int) :
    (main = FetchOutcome.transportFailure →
      (checkSiteStatus main apiUrl api elapsed).isUp = false) ∧
    (∀ s b, main = FetchOutcome.resp s b → s ≥ 400 →
      (checkSiteStatus main apiUrl api elapsed).isUp = false ∧
      (checkSiteStatus main apiUrl api elapsed).statusCode = s) ∧
    (∀ s b, main = FetchOutcome.resp s b → s < 400 → apiUrl = none →
      (checkSiteStatus main apiUrl api elapsed).isUp = true ∧
      (checkSiteStatus main apiUrl api elapsed).hasResults = false) ∧
    (∀ s b u, main = FetchOutcome.resp s b → s < 400 → apiUrl = some u →
      api = FetchOutcome.transportFailure →
      (checkSiteStatus main apiUrl api elapsed).isUp = false) ∧
    (∀ s b u as ab, main = FetchOutcome.resp s b → s < 400 → apiUrl = some u →
      api = FetchOutcome.resp as ab →
      (((checkSiteStatus main apiUrl api elapsed).isUp = true) ↔
        (200 ≤ as ∧ as < 400)) ∧
      (((checkSiteStatus main apiUrl api elapsed).hasResults = true) ↔
        ((200 ≤ as ∧ as < 400) ∧ bodyNonemptySpec ab = true))) := by
  refine ⟨?_, ?_, ?_, ?_, ?_⟩
  · rintro rfl
    rfl
  · rintro s b rfl hge
    have : ¬(s < 400) := by omega
    simp [checkSiteStatus, hge]
  · rintro s b rfl hlt rfl
    have hge : ¬(s ≥ 400) := by omega
    simp [checkSiteStatus, hge]
  · rintro s b u rfl hlt rfl rfl
    have hge : ¬(s ≥ 400) := by omega
    simp [checkSiteStatus, hge]
  · rintro s b u as ab rfl hlt rfl rfl
    have hge : ¬(400 ≤ s) := by omega
    simp only [checkSiteStatus, ge_iff_le, if_neg hge]
    rcases ab with bs | _ | _
    · by_cases he : bs = [] <;>
        by_cases h1 : (200 : Int) ≤ as <;> by_cases h2 : as < 400 <;>
          simp_all [bodyNonemptySpec, List.isEmpty_iff]
    · by_cases h1 : (200 : Int) ≤ as <;> by_cases h2 : as < 400 <;>
        simp_all [bodyNonemptySpec]
    · by_cases h1 : (200 : Int) ≤ as <;> by_cases h2 : as < 400 <;>
        simp_all [bodyNonemptySpec]

/-- Witness for checkSiteStatus_spec: a 301 reply with an object body on
the follow-up GET is classified up. -/
theorem checkSiteStatus_spec_witness :
    (checkSiteStatus (FetchOutcome.resp 200 ApiBody.bnone) (some "u".data)
        (FetchOutcome.resp 301 ApiBody.bobj) 5).isUp = true := by
  exact ((checkSiteStatus_spec (FetchOutcome.resp 200 ApiBody.bnone) (some "u".data)
      (FetchOutcome.resp 301 ApiBody.bobj) 5).2.2.2.2 200 ApiBody.bnone "u".data 301
      ApiBody.bobj rfl (by norm_num) rfl rfl).1.mpr (by norm_num)

/-- C1: on the failure path of processRetryJob, a job whose fetched retry
count is 0 or 1 is rescheduled at now plus the matching backoff interval
(5 then 15 minutes), strictly in the future, with the retry count
incremented; but a job whose retry count is 2, although still below the
default maxRetries of 3, is left with a null retry instant (permanently
failed), even though scheduleRetry itself would have produced the
45-minute third retry: the guard uses the interval count minus one. -/
theorem processRetryJob_drops_third_retry (job : ScrapeJobRow) (now : Nat)
    (err : List Char) :
    (job.retryCount = 0 →
      (processRetryJobFailure job now err).nextRetryAt = some (now + 5 * 60 * 1000) ∧
      (processRetryJobFailure job now err).retryCount = 1 ∧
      now < now + 5 * 60 * 1000) ∧
    (job.retryCount = 1 →
      (processRetryJobFailure job now err).nextRetryAt = some (now + 15 * 60 * 1000) ∧
      (processRetryJobFailure job now err).retryCount = 2 ∧
      now < now + 15 * 60 * 1000) ∧
    (job.retryCount = 2 →
      (processRetryJobFailure job now err).nextRetryAt = none ∧
      (processRetryJobFailure job now err).status = JobStatus.failed) ∧
    scheduleRetry now 2 = some (now + 45 * 60 * 1000, 3) := by
  refine ⟨?_, ?_, ?_, rfl⟩
  · intro h0
    simp [processRetryJobFailure, scheduleRetry, scheduleJobRetry, resetJobForRetry,
      RETRY_INTERVALS_MS, h0]
  · intro h1
    simp [processRetryJobFailure, scheduleRetry, scheduleJobRetry, resetJobForRetry,
      RETRY_INTERVALS_MS, h1]
  · intro h2
    simp [processRetryJobFailure, scheduleRetry, scheduleJobRetry, resetJobForRetry,
      RETRY_INTERVALS_MS, h2]

/-- Witness for processRetryJob_drops_third_retry: the failing input is a
failed job with retry count 2 and the default max retries 3. -/
theorem processRetryJob_drops_third_retry_witness :
    (processRetryJobFailure ⟨1, JobStatus.failed, 2, 3, some 900, some "e".data⟩
        1000 "e".data).nextRetryAt = none := by
  exact ((processRetryJob_drops_third_retry
    ⟨1, JobStatus.failed, 2, 3, some 900, some "e".data⟩ 1000 "e".data).2.2.1 rfl).1

/-- The links produced by the autoMatchResults fold are the per-result
decisions in order. -/
theorem autoMatchResults_links_aux (ct : Int)
    (l : List (Nat × List (Nat × JsNum))) (acc : Nat × Nat × List (Nat × Nat)) :
    (l.foldl
        (fun acc r =>
          match autoMatchDecision r.2 ct with
          | some a => (acc.1 + 1, acc.2.1, acc.2.2 ++ [(r.1, a)])
          | none => (acc.1, acc.2.1 + 1, acc.2.2)) acc).2.2 =
      acc.2.2 ++ l.filterMap
        (fun r => (autoMatchDecision r.2 ct).map (fun a => (r.1, a))) := by
  induction l generalizing acc with
  | nil => simp
  | cons r t ih =>
    rcases h : autoMatchDecision r.2 ct with _ | a <;>
      simp [h, ih, Option.map]

/-- C3 counterexample: with two candidates below the 0.3 generation
threshold, of confidence 90 and 75, exactly one candidate has confidence
at least 90, yet autoMatchResults skips the result and links nothing. -/
theorem autoMatch_counterexample :
    ((findMatchesForResult [(7, ⟨1, 10⟩), (8, ⟨1, 4⟩)] autoMatchThreshold).filter
        (fun m => 90 ≤ m.confidence)).length = 1 ∧
    autoMatchResults 90 [(1, [(7, ⟨1, 10⟩), (8, ⟨1, 4⟩)])] = (0, 1, []) := by
  constructor <;> decide

/-- C3 amended: autoMatchResults links a result if and only if its
candidate list (generated with threshold 0.3) consists of exactly one
candidate and that candidate's confidence reaches the threshold of 90;
in particular any result with two or more candidates of confidence at
least 90 is skipped, and so is any result with two or more candidates at
all. -/
theorem autoMatchResults_amended (ct : Int)
    (unmatched : List (Nat × List (Nat × JsNum))) (raw : List (Nat × JsNum)) :
    ((autoMatchResults ct unmatched).2.2 =
      unmatched.filterMap
        (fun r => (autoMatchDecision r.2 ct).map (fun a => (r.1, a)))) ∧
    (∀ a, autoMatchDecision raw ct = some a ↔
      ∃ m, findMatchesForResult raw autoMatchThreshold = [m] ∧
        ct ≤ m.confidence ∧ a = m.athleteId) ∧
    (2 ≤ ((findMatchesForResult raw autoMatchThreshold).filter
        (fun m => ct ≤ m.confidence)).length →
      autoMatchDecision raw ct = none) := by
  refine ⟨?_, ?_, ?_⟩
  · simpa using autoMatchResults_links_aux ct unmatched (0, 0, [])
  · intro a
    rcases h : findMatchesForResult raw autoMatchThreshold with _ | ⟨m, _ | ⟨m2, t⟩⟩
    · simp [autoMatchDecision, h]
    · by_cases hc : ct ≤ m.confidence <;>
        simp [autoMatchDecision, h, hc, eq_comm]
    · simp [autoMatchDecision, h]
  · intro h2
    rcases h : findMatchesForResult raw autoMatchThreshold with _ | ⟨m, _ | ⟨m2, t⟩⟩
    · simp [h] at h2
    · have := List.length_filter_le (fun m => decide (ct ≤ m.confidence)) [m]
      rw [h] at h2
      simp at this
      omega
    · simp [autoMatchDecision, h]

/-- Witness for autoMatchResults_amended: two candidates of confidence 90
and 95 block the auto-link. -/
theorem autoMatchResults_amended_witness :
    autoMatchDecision [(7, ⟨1, 10⟩), (8, ⟨1, 20⟩)] 90 = none := by
  exact (autoMatchResults_amended 90 [] [(7, ⟨1, 10⟩), (8, ⟨1, 20⟩)]).2.2 (by decide)

/-- The or-undefined idiom never yields a present zero. -/
theorem numOrUndef_ne_zero (g n : Int) (h : numOrUndef g = some n) : n ≠ 0 := by
  unfold numOrUndef at h
  split at h
  · cases h
  · next hg =>
    injection h with h2
    omega

/-- When every alias key is absent or fails to parse, getNumber yields the
default. -/
theorem getNumber_default (item : Item) (keys : List String) (d : Int)
    (h : ∀ k ∈ keys, lookupItem item k = JsVal.undef ∨
      jsParseInt (jsToString (lookupItem item k)) = none) :
    getNumber item keys d = d := by
  induction keys with
  | nil => rfl
  | cons k ks ih =>
    have hk := h k (List.mem_cons_self k ks)
    have hks : ∀ k2 ∈ ks, lookupItem item k2 = JsVal.undef ∨
        jsParseInt (jsToString (lookupItem item k2)) = none :=
      fun k2 hm => h k2 (List.mem_cons_of_mem _ hm)
    rcases hv : lookupItem item k with _ | _ | sv
    · simp [getNumber, hv, ih hks]
    · rcases hk with h1 | h1
      · simp [hv] at h1
      · rw [hv] at h1
        simp [getNumber, hv, h1, ih hks]
    · rcases hk with h1 | h1
      · simp [hv] at h1
      · rw [hv] at h1
        simp [getNumber, hv, h1, ih hks]

/-- C8 counterexample: the alias value -5 parses to a present negative
gender position, refuting the positivity of present values. -/
theorem parseResultItem_counterexample :
    (parseResultItem [("name", JsVal.vstr "Jane".data),
        ("gender_rank", JsVal.vstr "-5".data)] 1).map RaceResult.genderPosition =
      some (some (-5)) ∧ ¬(0 < (-5 : Int)) := by
  constructor <;> decide

/-- C8 amended: the gender-position and category-position fields accept
only non-zero parseInt values: when every alias value is absent, null, or
has no parseInt value (so in particular a dash, an empty string, or any
other token without a signed digit run), the parsed field is absent, and
whenever a value is present it is a non-zero integer (negative values
such as -5 are accepted, so present values need not be positive). -/
theorem parseResultItem_rank_fields (item : Item) (dp : Int) (r : RaceResult)
    (hp : parseResultItem item dp = some r) :
    (∀ n, r.genderPosition = some n → n ≠ 0) ∧
    (∀ n, r.categoryPosition = some n → n ≠ 0) ∧
    ((∀ k ∈ genderRankKeys, lookupItem item k = JsVal.undef ∨
        jsParseInt (jsToString (lookupItem item k)) = none) →
      r.genderPosition = none) ∧
    ((∀ k ∈ categoryRankKeys, lookupItem item k = JsVal.undef ∨
        jsParseInt (jsToString (lookupItem item k)) = none) →
      r.categoryPosition = none) := by
  simp only [parseResultItem] at hp
  split at hp
  · cases hp
  · have hr := Option.some.inj hp
    subst hr
    refine ⟨?_, ?_, ?_, ?_⟩
    · intro n hn
      exact numOrUndef_ne_zero _ n hn
    · intro n hn
      exact numOrUndef_ne_zero _ n hn
    · intro hall
      show numOrUndef (getNumber item genderRankKeys 0) = none
      rw [getNumber_default item genderRankKeys 0 hall]
      rfl
    · intro hall
      show numOrUndef (getNumber item categoryRankKeys 0) = none
      rw [getNumber_default item categoryRankKeys 0 hall]
      rfl

/-- Witness for parseResultItem_rank_fields: a parsed row with gender
rank 7 has a present, non-zero gender position. -/
theorem parseResultItem_rank_fields_witness :
    parseResultItem [("name", JsVal.vstr "Jane".data),
        ("gender_rank", JsVal.vstr "7".data)] 1 =
      some ⟨1, [], "Jane".data, [], [], [], none, some 7, none, none,
        none, none, none, none⟩ ∧ (7 : Int) ≠ 0 :=
  ⟨by decide,
   (parseResultItem_rank_fields
      [("name", JsVal.vstr "Jane".data), ("gender_rank", JsVal.vstr "7".data)] 1
      ⟨1, [], "Jane".data, [], [], [], none, some 7, none, none,
        none, none, none, none⟩ (by decide)).1 7 (by decide)⟩

/-- C10: linkResult delegates to linkResultToAthlete, which leaves the
timing-checkpoints table untouched, keeps the result table pointwise
(every row whose id differs is unchanged), and on the identified row sets
athlete-id while preserving every other column. -/
theorem linkResultToAthlete_frame (db : ResultsDb) (rid aid : Nat) :
    linkResult db rid aid = linkResultToAthlete db rid aid ∧
    (linkResultToAthlete db rid aid).timingCheckpoints = db.timingCheckpoints ∧
    (∀ i : Nat, ((linkResultToAthlete db rid aid).raceResults.get? i) =
      (db.raceResults.get? i).map
        (fun r => if r.id = rid then { r with athleteId := some aid } else r)) ∧
    (∀ r : RaceResultRow, r.id ≠ rid →
      (if r.id = rid then { r with athleteId := some aid } else r) = r) ∧
    (∀ r : RaceResultRow, r.id = rid →
      ((if r.id = rid then { r with athleteId := some aid } else r).athleteId =
          some aid ∧
        (if r.id = rid then { r with athleteId := some aid } else r).id = r.id ∧
        (if r.id = rid then { r with athleteId := some aid } else r).eventId =
          r.eventId ∧
        (if r.id = rid then { r with athleteId := some aid } else r).position =
          r.position ∧
        (if r.id = rid then { r with athleteId := some aid } else r).bibNumber =
          r.bibNumber ∧
        (if r.id = rid then { r with athleteId := some aid } else r).name =
          r.name ∧
        (if r.id = rid then { r with athleteId := some aid } else r).normalizedName =
          r.normalizedName ∧
        (if r.id = rid then { r with athleteId := some aid } else r).gender =
          r.gender ∧
        (if r.id = rid then { r with athleteId := some aid } else r).category =
          r.category ∧
        (if r.id = rid then { r with athleteId := some aid } else r).finishTime =
          r.finishTime ∧
        (if r.id = rid then { r with athleteId := some aid } else r).pace =
          r.pace ∧
        (if r.id = rid then { r with athleteId := some aid } else r).genderPosition =
          r.genderPosition ∧
        (if r.id = rid then { r with athleteId := some aid } else r).categoryPosition =
          r.categoryPosition ∧
        (if r.id = rid then { r with athleteId := some aid } else r).country =
          r.country ∧
        (if r.id = rid then { r with athleteId := some aid } else r).time5km =
          r.time5km ∧
        (if r.id = rid then { r with athleteId := some aid } else r).time10km =
          r.time10km ∧
        (if r.id = rid then { r with athleteId := some aid } else r).time13km =
          r.time13km ∧
        (if r.id = rid then { r with athleteId := some aid } else r).time15km =
          r.time15km ∧
        (if r.id = rid then { r with athleteId := some aid } else r).metadata =
          r.metadata ∧
        (if r.id = rid then { r with athleteId := some aid } else r).createdAt =
          r.createdAt ∧
        (if r.id = rid then { r with athleteId := some aid } else r).distanceId =
          r.distanceId ∧
        (if r.id = rid then { r with athleteId := some aid } else r).gunTime =
          r.gunTime ∧
        (if r.id = rid then { r with athleteId := some aid } else r).chipTime =
          r.chipTime ∧
        (if r.id = rid then { r with athleteId := some aid } else r).timeBehind =
          r.timeBehind ∧
        (if r.id = rid then { r with athleteId := some aid } else r).age =
          r.age ∧
        (if r.id = rid then { r with athleteId := some aid } else r).club =
          r.club ∧
        (if r.id = rid then { r with athleteId := some aid } else r).status =
          r.status ∧
        (if r.id = rid then { r with athleteId := some aid } else r).validatedAt =
          r.validatedAt ∧
        (if r.id = rid then { r with athleteId := some aid } else r).validationErrors =
          r.validationErrors)) := by
  refine ⟨rfl, rfl, ?_, ?_, ?_⟩
  · intro i
    simp [linkResultToAthlete, List.getElem?_map]
  · intro r hr
    simp [hr]
  · intro r hr
    simp [hr]

/-- Witness for linkResultToAthlete_frame: linking row 5 leaves a row
with id 6 unchanged. -/
theorem linkResultToAthlete_frame_witness :
    (if (⟨6, 0, none, none, none, "n".data, none, none, none, none, none,
          none, none, none, none, none, none, none, none, 0, none, none,
          none, none, none, none, "finished".data, none, none⟩ :
        RaceResultRow).id = 5
      then { (⟨6, 0, none, none, none, "n".data, none, none, none, none, none,
          none, none, none, none, none, none, none, none, 0, none, none,
          none, none, none, none, "finished".data, none, none⟩ :
        RaceResultRow) with athleteId := some 9 }
      else (⟨6, 0, none, none, none, "n".data, none, none, none, none, none,
          none, none, none, none, none, none, none, none, 0, none, none,
          none, none, none, none, "finished".data, none, none⟩ :
        RaceResultRow)) =
      (⟨6, 0, none, none, none, "n".data, none, none, none, none, none,
          none, none, none, none, none, none, none, none, 0, none, none,
          none, none, none, none, "finished".data, none, none⟩ :
        RaceResultRow) := by
  exact (linkResultToAthlete_frame ⟨[], []⟩ 5 9).2.2.2.1
    ⟨6, 0, none, none, none, "n".data, none, none, none, none, none,
      none, none, none, none, none, none, none, none, 0, none, none,
      none, none, none, none, "finished".data, none, none⟩ (by decide)


/-- The unsigned parseFloat model only produces positive denominators. -/
theorem jsParseFloatUnsigned_den_pos (l : List Char) (q : JsNum)
    (h : jsParseFloatUnsigned l = some q) : 0 < q.den := by
  simp only [jsParseFloatUnsigned] at h
  split at h
  · split at h
    · cases h
    · injection h with h2
      subst h2
      positivity
  · split at h
    · cases h
    · injection h with h2
      subst h2
      simp [JsNum.ofInt]

/-- The parseFloat model only produces positive denominators. -/
theorem jsParseFloat_den_pos (l : List Char) (q : JsNum)
    (h : jsParseFloat l = some q) : 0 < q.den := by
  simp only [jsParseFloat] at h
  split at h
  · exact jsParseFloatUnsigned_den_pos _ _ h
  · next rest =>
    rcases hu : jsParseFloatUnsigned rest with _ | q2 <;> rw [hu] at h
    · cases h
    · injection h with h2
      subst h2
      simpa [JsNum.neg] using jsParseFloatUnsigned_den_pos _ _ hu
  · exact jsParseFloatUnsigned_den_pos _ _ h

/-- The time parser only produces positive denominators. -/
theorem parseTimeToSeconds_den_pos (time : List Char) (t : JsNum)
    (h : parseTimeToSeconds time = some t) : 0 < t.den := by
  simp only [parseTimeToSeconds] at h
  split at h
  · cases h
  · split at h
    · cases h
    · split at h
      · rename_i hh m sv heq
        injection h with h2
        subst h2
        have e1 : some hh ∈ (time.splitOn ':').map (fun p => jsParseFloat (jsTrim p)) := by
          rw [heq]; simp
        have e2 : some m ∈ (time.splitOn ':').map (fun p => jsParseFloat (jsTrim p)) := by
          rw [heq]; simp
        have e3 : some sv ∈ (time.splitOn ':').map (fun p => jsParseFloat (jsTrim p)) := by
          rw [heq]; simp
        obtain ⟨p1, -, hp1⟩ := List.mem_map.mp e1
        obtain ⟨p2, -, hp2⟩ := List.mem_map.mp e2
        obtain ⟨p3, -, hp3⟩ := List.mem_map.mp e3
        have d1 := jsParseFloat_den_pos _ _ hp1
        have d2 := jsParseFloat_den_pos _ _ hp2
        have d3 := jsParseFloat_den_pos _ _ hp3
        simp only [JsNum.add, JsNum.smul]
        exact mul_pos d1 (mul_pos d2 d3)
      · rename_i m sv heq
        injection h with h2
        subst h2
        have e2 : some m ∈ (time.splitOn ':').map (fun p => jsParseFloat (jsTrim p)) := by
          rw [heq]; simp
        have e3 : some sv ∈ (time.splitOn ':').map (fun p => jsParseFloat (jsTrim p)) := by
          rw [heq]; simp
        obtain ⟨p2, -, hp2⟩ := List.mem_map.mp e2
        obtain ⟨p3, -, hp3⟩ := List.mem_map.mp e3
        have d2 := jsParseFloat_den_pos _ _ hp2
        have d3 := jsParseFloat_den_pos _ _ hp3
        simp only [JsNum.add, JsNum.smul]
        exact mul_pos d2 d3
      · cases h

/-- The rational value of a sum, for well-formed denominators. -/
theorem JsNum.toQ_add (a b : JsNum) (ha : a.den ≠ 0) (hb : b.den ≠ 0) :
    (a.add b).toQ = a.toQ + b.toQ := by
  have ha2 : (a.den : ℚ) ≠ 0 := Int.cast_ne_zero.mpr ha
  have hb2 : (b.den : ℚ) ≠ 0 := Int.cast_ne_zero.mpr hb
  simp only [JsNum.add, JsNum.toQ]
  push_cast
  field_simp

/-- The rational value of an integer multiple. -/
theorem JsNum.toQ_smul (k : Int) (a : JsNum) :
    (JsNum.smul k a).toQ = k * a.toQ := by
  simp only [JsNum.smul, JsNum.toQ]
  push_cast
  ring

/-- The boolean comparison agrees with the rational order for positive
denominators. -/
theorem JsNum.ltB_iff (a b : JsNum) (ha : 0 < a.den) (hb : 0 < b.den) :
    (JsNum.ltB a b = true) ↔ a.toQ < b.toQ := by
  have ha2 : (0 : ℚ) < (a.den : ℚ) := by exact_mod_cast ha
  have hb2 : (0 : ℚ) < (b.den : ℚ) := by exact_mod_cast hb
  simp only [JsNum.ltB, JsNum.toQ, decide_eq_true_eq]
  rw [div_lt_div_iff₀ ha2 hb2]
  exact_mod_cast Iff.rfl

/-- A successful time parse forces a token count of two or three. -/
theorem parseTimeToSeconds_some_len (time : List Char) (t : JsNum)
    (h : parseTimeToSeconds time = some t) :
    (time.splitOn ':').length = 2 ∨ (time.splitOn ':').length = 3 := by
  simp only [parseTimeToSeconds] at h
  split at h
  · cases h
  · split at h
    · cases h
    · split at h
      · rename_i hh m sv heq
        right
        have := congrArg List.length heq
        simpa using this
      · rename_i m sv heq
        left
        have := congrArg List.length heq
        simpa using this
      · cases h

/-- A successful time parse forces every token to parse. -/
theorem parseTimeToSeconds_some_tokens (time : List Char) (t : JsNum)
    (h : parseTimeToSeconds time = some t) :
    ∀ p ∈ time.splitOn ':', (jsParseFloat (jsTrim p)).isSome := by
  simp only [parseTimeToSeconds] at h
  split at h
  · cases h
  · split at h
    · cases h
    · rename_i hna
      intro p hp
      have hmem : jsParseFloat (jsTrim p) ∈
          (time.splitOn ':').map (fun p => jsParseFloat (jsTrim p)) :=
        List.mem_map.mpr ⟨p, hp, rfl⟩
      rcases ho : jsParseFloat (jsTrim p) with _ | v
      · exact absurd (List.any_eq_true.mpr ⟨_, hmem, by simp [ho]⟩) hna
      · rfl

/-- C7: the time parser splits its input on the colon; a two-token input
with parseable tokens yields 60 times the first value plus the second, a
three-token input yields 3600 times the first plus 60 times the second
plus the third, any other token count yields no parse, and any
non-numeric token (one whose trimmed form has no parseFloat value)
invalidates the parse. -/
theorem parseTimeToSeconds_spec (time : List Char) :
    ((time.splitOn ':').length ≠ 2 → (time.splitOn ':').length ≠ 3 →
      parseTimeToSeconds time = none) ∧
    ((∃ p ∈ time.splitOn ':', jsParseFloat (jsTrim p) = none) →
      parseTimeToSeconds time = none) ∧
    (∀ a b m s, time.splitOn ':' = [a, b] →
      jsParseFloat (jsTrim a) = some m → jsParseFloat (jsTrim b) = some s →
      ∃ t, parseTimeToSeconds time = some t ∧
        JsNum.toQ t = 60 * JsNum.toQ m + JsNum.toQ s) ∧
    (∀ a b c hh m s, time.splitOn ':' = [a, b, c] →
      jsParseFloat (jsTrim a) = some hh → jsParseFloat (jsTrim b) = some m →
      jsParseFloat (jsTrim c) = some s →
      ∃ t, parseTimeToSeconds time = some t ∧
        JsNum.toQ t = 3600 * JsNum.toQ hh + 60 * JsNum.toQ m + JsNum.toQ s) := by
  refine ⟨?_, ?_, ?_, ?_⟩
  · intro h2 h3
    rcases hv : parseTimeToSeconds time with _ | t
    · rfl
    · rcases parseTimeToSeconds_some_len time t hv with hl | hl
      · exact absurd hl h2
      · exact absurd hl h3
  · rintro ⟨p, hp, hnone⟩
    rcases hv : parseTimeToSeconds time with _ | t
    · rfl
    · have := parseTimeToSeconds_some_tokens time t hv p hp
      rw [hnone] at this
      cases this
  · intro a b m s hsplit hm hs
    have hne : time ≠ [] := by
      intro h0
      subst h0
      rw [show (([] : List Char).splitOn ':') = [[]] from rfl] at hsplit
      cases hsplit
    have he : time.isEmpty = false := by
      simpa [List.isEmpty_iff] using hne
    refine ⟨(JsNum.smul 60 m).add s, ?_, ?_⟩
    · simp [parseTimeToSeconds, he, hsplit, hm, hs]
    · have dm : m.den ≠ 0 := ne_of_gt (jsParseFloat_den_pos _ _ hm)
      have ds : s.den ≠ 0 := ne_of_gt (jsParseFloat_den_pos _ _ hs)
      have dsm : (JsNum.smul 60 m).den ≠ 0 := dm
      rw [JsNum.toQ_add (JsNum.smul 60 m) s dsm ds, JsNum.toQ_smul]
      norm_num
  · intro a b c hh m s hsplit hhh hm hs
    have hne : time ≠ [] := by
      intro h0
      subst h0
      rw [show (([] : List Char).splitOn ':') = [[]] from rfl] at hsplit
      cases hsplit
    have he : time.isEmpty = false := by
      simpa [List.isEmpty_iff] using hne
    refine ⟨(JsNum.smul 3600 hh).add ((JsNum.smul 60 m).add s), ?_, ?_⟩
    · simp [parseTimeToSeconds, he, hsplit, hhh, hm, hs]
    · have dh : hh.den ≠ 0 := ne_of_gt (jsParseFloat_den_pos _ _ hhh)
      have dm : m.den ≠ 0 := ne_of_gt (jsParseFloat_den_pos _ _ hm)
      have ds : s.den ≠ 0 := ne_of_gt (jsParseFloat_den_pos _ _ hs)
      have dms : ((JsNum.smul 60 m).add s).den ≠ 0 := by
        simp only [JsNum.add, JsNum.smul]
        exact mul_ne_zero dm ds
      rw [JsNum.toQ_add (JsNum.smul 3600 hh) ((JsNum.smul 60 m).add s)
          (show (JsNum.smul 3600 hh).den ≠ 0 from dh) dms,
        JsNum.toQ_add (JsNum.smul 60 m) s
          (show (JsNum.smul 60 m).den ≠ 0 from dm) ds,
        JsNum.toQ_smul, JsNum.toQ_smul]
      push_cast
      ring

/-- Witness for parseTimeToSeconds_spec: the input 7:05 parses to 425
seconds. -/
theorem parseTimeToSeconds_spec_witness :
    ∃ t, parseTimeToSeconds "7:05".data = some t ∧
      JsNum.toQ t = 60 * JsNum.toQ ⟨7, 1⟩ + JsNum.toQ ⟨5, 1⟩ := by
  exact (parseTimeToSeconds_spec "7:05".data).2.2.1 "7".data "05".data ⟨7, 1⟩ ⟨5, 1⟩
    (by decide) (by decide) (by decide)

/-- The progression scan accepts a list exactly when the accumulator
followed by the parsed times is non-decreasing in rational value. -/
theorem validateAux_iff (l : List Checkpoint) : ∀ last : JsNum, 0 < last.den →
    (validateAux last l = true ↔
      List.Chain' (· ≤ ·)
        (JsNum.toQ last :: (l.filterMap checkpointParse).map JsNum.toQ)) := by
  induction l with
  | nil =>
    intro last _
    simp [validateAux]
  | cons cp rest ih =>
    intro last hlast
    rcases hcp : cp.cumulativeTime with _ | sv
    · rw [show validateAux last (cp :: rest) = validateAux last rest by
        simp [validateAux, hcp]]
      rw [show (cp :: rest).filterMap checkpointParse = rest.filterMap checkpointParse by
        simp [List.filterMap_cons, checkpointParse, hcp]]
      exact ih last hlast
    · by_cases hse : sv.isEmpty
      · rw [show validateAux last (cp :: rest) = validateAux last rest by
          simp [validateAux, hcp, hse]]
        rw [show (cp :: rest).filterMap checkpointParse = rest.filterMap checkpointParse by
          simp [List.filterMap_cons, checkpointParse, hcp, hse]]
        exact ih last hlast
      · rcases hpt : parseTimeToSeconds sv with _ | t
        · rw [show validateAux last (cp :: rest) = validateAux last rest by
            simp [validateAux, hcp, hse, hpt]]
          rw [show (cp :: rest).filterMap checkpointParse = rest.filterMap checkpointParse by
            simp [List.filterMap_cons, checkpointParse, hcp, hse, hpt]]
          exact ih last hlast
        · have ht : 0 < t.den := parseTimeToSeconds_den_pos _ _ hpt
          have hfm : (cp :: rest).filterMap checkpointParse =
              t :: rest.filterMap checkpointParse := by
            simp [List.filterMap_cons, checkpointParse, hcp, hse, hpt]
          rw [hfm]
          by_cases hlt : JsNum.ltB t last = true
          · have hql : t.toQ < last.toQ := (JsNum.ltB_iff t last ht hlast).mp hlt
            rw [show validateAux last (cp :: rest) = false by
              simp [validateAux, hcp, hse, hpt, hlt]]
            simp only [List.map_cons, List.chain'_cons]
            constructor
            · intro hfalse
              cases hfalse
            · rintro ⟨hle, -⟩
              exact absurd hql (not_lt.mpr hle)
          · have hql : last.toQ ≤ t.toQ := by
              have := (JsNum.ltB_iff t last ht hlast).not.mp hlt
              exact not_lt.mp this
            rw [show validateAux last (cp :: rest) = validateAux t rest by
              simp [validateAux, hcp, hse, hpt, hlt]]
            rw [ih t ht]
            simp only [List.map_cons, List.chain'_cons]
            constructor
            · intro hc
              exact ⟨hql, hc⟩
            · rintro ⟨-, hc⟩
              exact hc

/-- C6 counterexample: a single checkpoint whose cumulative time parses
to a negative value is a one-element (hence non-decreasing) sequence, yet
the validator rejects it because its running last time starts at zero. -/
theorem validateCheckpointProgression_counterexample :
    validateCheckpointProgression [⟨some "-5:30".data, 1⟩] = false ∧
    List.Chain' (· ≤ ·) (parsedCumulativeTimes [⟨some "-5:30".data, 1⟩]) := by
  constructor
  · decide
  · have h : parsedTimesRaw [⟨some "-5:30".data, 1⟩] = [⟨-270, 1⟩] := by decide
    rw [parsedCumulativeTimes, h]
    simp

/-- C6 amended: validateCheckpointProgression accepts a result if and
only if the parseable cumulative times of its checkpoints, sorted by
checkpointOrder and prefixed by an initial zero, form a monotonically
non-decreasing sequence (absent, empty and unparseable cumulative times
are skipped); the implicit leading zero additionally requires the first
parseable time to be non-negative. -/
theorem validateCheckpointProgression_iff (checkpoints : List Checkpoint) :
    validateCheckpointProgression checkpoints = true ↔
      List.Chain' (· ≤ ·) (0 :: parsedCumulativeTimes checkpoints) := by
  have h := validateAux_iff (sortByOrder checkpoints) (JsNum.ofInt 0) (by norm_num [JsNum.ofInt])
  rw [validateCheckpointProgression, h, parsedCumulativeTimes, parsedTimesRaw]
  have h0 : JsNum.toQ (JsNum.ofInt 0) = 0 := by
    simp [JsNum.toQ, JsNum.ofInt]
  rw [h0]

/-- Char.ofNat reads back to the given code for codes below the surrogate
range. -/
theorem charToNatOfNat (n : Nat) (h : n < 55296) : (Char.ofNat n).toNat = n := by
  rw [Char.toNat, Char.ofNat, dif_pos (Or.inl h)]
  simp [Char.ofNatAux, UInt32.toNat, BitVec.toNat_ofNatLt]

/-- Word characters are not JavaScript whitespace. -/
theorem word_not_ws (c : Char) (h : wordChar c = true) : jsWhitespace c = false := by
  rw [Bool.eq_false_iff]
  intro hw
  simp only [wordChar, Bool.or_eq_true, Bool.and_eq_true, decide_eq_true_eq] at h
  simp only [jsWhitespace, Bool.or_eq_true, Bool.and_eq_true, decide_eq_true_eq] at hw
  omega

/-- A canonical character that is whitespace is the plain space. -/
theorem canon_ws_space (c : Char) (hc : canonChar c = true)
    (hw : jsWhitespace c = true) : c = ' ' := by
  simp only [canonChar, Bool.or_eq_true, Bool.and_eq_true, decide_eq_true_eq] at hc
  rcases hc with ⟨hword, -⟩ | hsp
  · rw [word_not_ws c hword] at hw
    cases hw
  · exact hsp

/-- Canonical characters are not combining marks. -/
theorem canon_not_combining (c : Char) (hc : canonChar c = true) :
    combining0300 c = false := by
  rw [Bool.eq_false_iff]
  intro hcomb
  simp only [canonChar, Bool.or_eq_true, Bool.and_eq_true, decide_eq_true_eq] at hc
  simp only [combining0300, Bool.and_eq_true, decide_eq_true_eq] at hcomb
  rcases hc with ⟨hword, -⟩ | hsp
  · simp only [wordChar, Bool.or_eq_true, Bool.and_eq_true, decide_eq_true_eq] at hword
    omega
  · subst hsp
    have h32 : (' ').toNat = 32 := rfl
    omega

/-- Canonical characters survive the word-or-whitespace filter. -/
theorem canon_word_or_ws (c : Char) (hc : canonChar c = true) :
    (wordChar c || jsWhitespace c) = true := by
  simp only [canonChar, Bool.or_eq_true, Bool.and_eq_true, decide_eq_true_eq] at hc
  rcases hc with ⟨hword, -⟩ | hsp
  · simp [hword]
  · subst hsp
    decide

/-- The lowercase map fixes canonical characters. -/
theorem canon_lower_fixed (c : Char) (hc : canonChar c = true) : asciiLower c = c := by
  simp only [canonChar, Bool.or_eq_true, Bool.and_eq_true, Bool.not_eq_eq_eq_not,
    Bool.not_true, decide_eq_true_eq] at hc
  rcases hc with ⟨-, hup⟩ | hsp
  · rw [asciiLower, if_neg]
    simp [hup]
  · subst hsp
    decide

/-- The lowercase map never produces an uppercase letter. -/
theorem lower_not_upper (c : Char) : upperAZ (asciiLower c) = false := by
  rw [asciiLower]
  by_cases hu : upperAZ c = true
  · rw [if_pos hu]
    simp only [upperAZ, Bool.and_eq_true, decide_eq_true_eq] at hu
    have hlt : c.toNat + 32 < 55296 := by omega
    rw [Bool.eq_false_iff]
    intro h2
    simp only [upperAZ, Bool.and_eq_true, decide_eq_true_eq] at h2
    rw [charToNatOfNat _ hlt] at h2
    omega
  · rw [if_neg hu]
    exact Bool.eq_false_iff.mpr hu

/-- Members of the collapse output are the space or non-whitespace
members of the input. -/
theorem mem_collapseWsAux (b : Bool) (y : List Char) (c : Char)
    (h : c ∈ collapseWsAux b y) :
    c = ' ' ∨ (c ∈ y ∧ jsWhitespace c = false) := by
  induction y generalizing b with
  | nil =>
    simp [collapseWsAux] at h
  | cons d ds ih =>
    by_cases hw : jsWhitespace d = true
    · by_cases hb : b = true
      · rw [show collapseWsAux b (d :: ds) = collapseWsAux true ds by
          simp [collapseWsAux, hw, hb]] at h
        rcases ih true h with h1 | ⟨h1, h2⟩
        · exact Or.inl h1
        · exact Or.inr ⟨List.mem_cons_of_mem _ h1, h2⟩
      · rw [show collapseWsAux b (d :: ds) = ' ' :: collapseWsAux true ds by
          simp [collapseWsAux, hw, hb]] at h
        rcases List.mem_cons.mp h with h1 | h1
        · exact Or.inl h1
        · rcases ih true h1 with h2 | ⟨h2, h3⟩
          · exact Or.inl h2
          · exact Or.inr ⟨List.mem_cons_of_mem _ h2, h3⟩
    · rw [show collapseWsAux b (d :: ds) = d :: collapseWsAux false ds by
        simp [collapseWsAux, hw]] at h
      rcases List.mem_cons.mp h with h1 | h1
      · subst h1
        exact Or.inr ⟨List.mem_cons_self _ _, Bool.eq_false_iff.mpr hw⟩
      · rcases ih false h1 with h2 | ⟨h2, h3⟩
        · exact Or.inl h2
        · exact Or.inr ⟨List.mem_cons_of_mem _ h2, h3⟩

/-- The collapse output never carries two adjacent whitespace characters,
and in sticky mode it starts with a non-whitespace character. -/
theorem collapse_chain_aux (y : List Char) :
    List.Chain' wsApart (collapseWsAux false y) ∧
    List.Chain' wsApart (collapseWsAux true y) ∧
    (∀ c, (collapseWsAux true y).head? = some c → jsWhitespace c = false) := by
  induction y with
  | nil =>
    refine ⟨List.chain'_nil, List.chain'_nil, ?_⟩
    intro c h
    cases h
  | cons d ds ih =>
    obtain ⟨ihf, iht, ihh⟩ := ih
    by_cases hw : jsWhitespace d = true
    · have ef : collapseWsAux false (d :: ds) = ' ' :: collapseWsAux true ds := by
        simp [collapseWsAux, hw]
      have et : collapseWsAux true (d :: ds) = collapseWsAux true ds := by
        simp [collapseWsAux, hw]
      refine ⟨?_, ?_, ?_⟩
      · rw [ef, List.chain'_cons']
        refine ⟨?_, iht⟩
        intro h hh
        intro hpair
        rw [ihh h hh] at hpair
        exact absurd hpair.2 (by simp)
      · rw [et]
        exact iht
      · rw [et]
        exact ihh
    · have ef : collapseWsAux false (d :: ds) = d :: collapseWsAux false ds := by
        simp [collapseWsAux, hw]
      have et : collapseWsAux true (d :: ds) = d :: collapseWsAux false ds := by
        simp [collapseWsAux, hw]
      refine ⟨?_, ?_, ?_⟩
      · rw [ef, List.chain'_cons']
        exact ⟨fun h _ hpair => hw hpair.1, ihf⟩
      · rw [et, List.chain'_cons']
        exact ⟨fun h _ hpair => hw hpair.1, ihf⟩
      · rw [et]
        intro c hc
        have : c = d := by
          simpa using hc.symm
        subst this
        exact Bool.eq_false_iff.mpr hw

/-- Collapsing is the identity on lists whose only whitespace is single
plain spaces. -/
theorem collapse_id_aux (y : List Char)
    (hsp : ∀ c ∈ y, jsWhitespace c = true → c = ' ')
    (hch : List.Chain' wsApart y) :
    collapseWsAux false y = y ∧
      ((∀ c, y.head? = some c → jsWhitespace c = false) →
        collapseWsAux true y = y) := by
  induction y with
  | nil => exact ⟨rfl, fun _ => rfl⟩
  | cons d ds ih =>
    have hsp2 : ∀ c ∈ ds, jsWhitespace c = true → c = ' ' :=
      fun c hc => hsp c (List.mem_cons_of_mem _ hc)
    obtain ⟨ihf, iht⟩ := ih hsp2 hch.tail
    by_cases hw : jsWhitespace d = true
    · have hd : d = ' ' := hsp d (List.mem_cons_self _ _) hw
      have hheadds : ∀ c, ds.head? = some c → jsWhitespace c = false := by
        intro c hc
        have hr := (List.chain'_cons'.mp hch).1 c hc
        rw [Bool.eq_false_iff]
        intro hc2
        exact hr ⟨hw, hc2⟩
      constructor
      · rw [show collapseWsAux false (d :: ds) = ' ' :: collapseWsAux true ds by
          simp [collapseWsAux, hw]]
        rw [iht hheadds, hd]
      · intro hhead
        have := hhead d rfl
        rw [this] at hw
        cases hw
    · constructor
      · rw [show collapseWsAux false (d :: ds) = d :: collapseWsAux false ds by
          simp [collapseWsAux, hw]]
        rw [ihf]
      · intro _
        rw [show collapseWsAux true (d :: ds) = d :: collapseWsAux false ds by
          simp [collapseWsAux, hw]]
        rw [ihf]

/-- Trimming keeps only members of the input. -/
theorem jsTrim_subset (y : List Char) : ∀ c ∈ jsTrim y, c ∈ y := by
  intro c hc
  unfold jsTrim at hc
  rw [List.mem_reverse] at hc
  have h1 := (List.dropWhile_sublist _).subset hc
  rw [List.mem_reverse] at h1
  exact (List.dropWhile_sublist _).subset h1

/-- The adjacency invariant survives dropWhile. -/
theorem chain_dropWhile {R : Char → Char → Prop} (p : Char → Bool)
    (l : List Char) (h : List.Chain' R l) : List.Chain' R (l.dropWhile p) := by
  rw [← List.takeWhile_append_dropWhile (p := p) (l := l)] at h
  exact (List.chain'_append.mp h).2.1

/-- The adjacency invariant survives reversal. -/
theorem chain_wsApart_reverse (l : List Char) (h : List.Chain' wsApart l) :
    List.Chain' wsApart l.reverse := by
  rw [List.chain'_reverse]
  exact h.imp (fun a b hab => fun hpair => hab ⟨hpair.2, hpair.1⟩)

/-- The adjacency invariant survives trimming. -/
theorem chain_jsTrim (y : List Char) (h : List.Chain' wsApart y) :
    List.Chain' wsApart (jsTrim y) := by
  unfold jsTrim
  exact chain_wsApart_reverse _ (chain_dropWhile _ _ (chain_wsApart_reverse _ (chain_dropWhile _ _ h)))

/-- The head surviving dropWhile fails the predicate. -/
theorem dropWhile_head_not (p : Char → Bool) (l : List Char) :
    ∀ c, (l.dropWhile p).head? = some c → p c = false := by
  induction l with
  | nil =>
    intro c h
    cases h
  | cons d ds ih =>
    by_cases hp : p d = true
    · rw [List.dropWhile_cons, if_pos hp]
      exact ih
    · rw [List.dropWhile_cons, if_neg hp]
      intro c h
      have : d = c := by simpa using h
      subst this
      exact Bool.eq_false_iff.mpr hp

/-- dropWhile is the identity when the head fails the predicate. -/
theorem dropWhile_eq_self_of_head (p : Char → Bool) (l : List Char)
    (h : ∀ c, l.head? = some c → p c = false) : l.dropWhile p = l := by
  cases l with
  | nil => rfl
  | cons d ds =>
    rw [List.dropWhile_cons, if_neg]
    simp [h d rfl]

/-- Trimming is idempotent. -/
theorem jsTrim_idem (y : List Char) : jsTrim (jsTrim y) = jsTrim y := by
  have hrev : (jsTrim y).reverse =
      ((y.dropWhile jsWhitespace).reverse).dropWhile jsWhitespace := by
    unfold jsTrim
    rw [List.reverse_reverse]
  have hB : (jsTrim y).reverse.dropWhile jsWhitespace = (jsTrim y).reverse := by
    apply dropWhile_eq_self_of_head
    rw [hrev]
    exact dropWhile_head_not _ _
  have hA : (jsTrim y).dropWhile jsWhitespace = jsTrim y := by
    apply dropWhile_eq_self_of_head
    intro c hc
    have hd1 : y.dropWhile jsWhitespace =
        jsTrim y ++ ((y.dropWhile jsWhitespace).reverse.takeWhile jsWhitespace).reverse := by
      unfold jsTrim
      rw [← List.reverse_append, List.takeWhile_append_dropWhile, List.reverse_reverse]
    have hhead : (y.dropWhile jsWhitespace).head? = some c := by
      rw [hd1]
      cases htp : jsTrim y with
      | nil =>
        rw [htp] at hc
        cases hc
      | cons a t2 =>
        rw [htp] at hc
        have : a = c := by simpa using hc
        subst this
        rfl
    exact dropWhile_head_not _ _ c hhead
  show (((jsTrim y).dropWhile jsWhitespace).reverse.dropWhile jsWhitespace).reverse = jsTrim y
  rw [hA, hB, List.reverse_reverse]

/-- Every character of a normalised name is canonical. -/
theorem normalizeName_canon (x : List Char) :
    ∀ c ∈ normalizeName x, canonChar c = true := by
  intro c hc
  unfold normalizeName collapseWs at hc
  rcases mem_collapseWsAux _ _ _ hc with hsp | ⟨hmem, hnw⟩
  · subst hsp
    decide
  · rw [List.mem_filter] at hmem
    obtain ⟨hmem1, hcond⟩ := hmem
    have hword : wordChar c = true := by
      rcases (by simpa using hcond : wordChar c = true ∨ jsWhitespace c = true) with h | h
      · exact h
      · rw [hnw] at h
        cases h
    rw [List.mem_filter] at hmem1
    have hmem2 := jsTrim_subset _ c hmem1.1
    rw [List.mem_map] at hmem2
    obtain ⟨d, -, hd⟩ := hmem2
    have hnu : upperAZ c = false := by
      rw [← hd]
      exact lower_not_upper d
    simp [canonChar, hword, hnu]

/-- A normalised name never carries two adjacent whitespace characters. -/
theorem normalizeName_chain (x : List Char) :
    List.Chain' wsApart (normalizeName x) := by
  unfold normalizeName collapseWs
  exact (collapse_chain_aux _).1

/-- On canonical input without adjacent whitespace, normalisation reduces
to a trim. -/
theorem normalizeName_canon_trim (y : List Char)
    (hcanon : ∀ c ∈ y, canonChar c = true)
    (hch : List.Chain' wsApart y) :
    normalizeName y = jsTrim y := by
  unfold normalizeName collapseWs
  have hmap : y.map asciiLower = y := by
    have := List.map_congr_left (f := asciiLower) (g := id)
      (fun c hc => canon_lower_fixed c (hcanon c hc))
    rw [this, List.map_id]
  rw [hmap]
  have hsub : ∀ c ∈ jsTrim y, canonChar c = true :=
    fun c hc => hcanon c (jsTrim_subset _ _ hc)
  have hf1 : (jsTrim y).filter (fun c => !combining0300 c) = jsTrim y := by
    rw [List.filter_eq_self]
    intro c hc
    simp [canon_not_combining c (hsub c hc)]
  rw [hf1]
  have hf2 : (jsTrim y).filter (fun c => wordChar c || jsWhitespace c) = jsTrim y := by
    rw [List.filter_eq_self]
    intro c hc
    exact canon_word_or_ws c (hsub c hc)
  rw [hf2]
  exact (collapse_id_aux (jsTrim y)
    (fun c hc hw => canon_ws_space c (hsub c hc) hw)
    (chain_jsTrim y hch)).1

/-- C2 counterexample: normalizeName is not idempotent; stripping the
exclamation mark of the input exposes a leading space that the early trim
no longer removes, and a second application removes it. -/
theorem normalizeName_not_idempotent :
    normalizeName (normalizeName "! a".data) ≠ normalizeName "! a".data := by
  decide

/-- C2 amended: normalizeName is idempotent from the second application
on: a third application changes nothing, because the double application
lands in the canonical trimmed image on which normalisation is the
identity. -/
theorem normalizeName_eventually_idempotent (l : List Char) :
    normalizeName (normalizeName (normalizeName l)) =
      normalizeName (normalizeName l) := by
  have hy1 := normalizeName_canon l
  have hy2 := normalizeName_chain l
  have h2 : normalizeName (normalizeName l) = jsTrim (normalizeName l) :=
    normalizeName_canon_trim _ hy1 hy2
  rw [h2]
  rw [normalizeName_canon_trim _
    (fun c hc => hy1 c (jsTrim_subset _ _ hc))
    (chain_jsTrim _ hy2)]
  exact jsTrim_idem _

end Graafin







